import Mathlib

/-
  Verification of the session/game core of the loginTL server.

  The embedding follows the primary draft of `src/server.js` (the in-memory
  maps `onlineUsers`, `activeGames`, `pendingChallenges`, the socket handlers
  `joinLobby`, `sendChallenge`, `acceptChallenge`, `refuseChallenge`,
  `makeMove`, `quitGame`, `disconnect`, and the helpers `endGame`,
  `updateStats`, `broadcastLobby`, `checkWinner`).  The rematch variant of the
  server (the `requestReplay` handler of `src/unnamed/part_004`) is embedded
  separately in namespace `Part004`.

  Modelling conventions:
  * JS plain objects used as maps become association lists with the helpers
    `alookup` / `aset` / `aremove` / `aupdate` below (JS object keys are
    unique, and insertion order is not relied upon by any property proved
    here).
  * The board `Array(9).fill(null)` becomes a total function
    `Nat → Option Mark`.  This captures the JS semantics that reading any
    index outside 0..8 yields a falsy value (`undefined` ~ `none`) and that
    writing an out-of-range index succeeds and extends the array.  The JS
    test `board.every(c => c !== null)` reduces to "cells 0..8 are all
    non-null" because cells 0..8 are materialised as `null` at creation,
    out-of-range written cells always hold a mark (non-null), and holes are
    skipped by `every`; it is embedded as `boardFull`.
  * The database table `users` becomes a function `Nat → Option UserRow`
    keyed by the internal id; the display-name fallback chain of `joinLobby`
    is collapsed into the single `displayName` column, which no claim
    inspects.  The SQL UPDATE of `updateStats` becomes a pointwise update of
    that function.
  * Socket emissions become an explicit list of `Event` values returned by
    each handler, in emission order.
-/

namespace LoginTL

/-! ### Association-list maps (JS plain objects) -/

def alookup {κ α : Type} [DecidableEq κ] : List (κ × α) → κ → Option α
  | [], _ => none
  | (k, v) :: rest, k' => if k' = k then some v else alookup rest k'

def aset {κ α : Type} [DecidableEq κ] : List (κ × α) → κ → α → List (κ × α)
  | [], k, v => [(k, v)]
  | (k0, v0) :: rest, k, v =>
      if k = k0 then (k0, v) :: rest else (k0, v0) :: aset rest k v

def aremove {κ α : Type} [DecidableEq κ] : List (κ × α) → κ → List (κ × α)
  | [], _ => []
  | (k0, v0) :: rest, k =>
      if k = k0 then aremove rest k else (k0, v0) :: aremove rest k

/-- `onlineUsers[k].field = v` style in-place mutation: update the stored
value when the key is present, otherwise do nothing. -/
def aupdate {κ α : Type} [DecidableEq κ] (l : List (κ × α)) (k : κ)
    (f : α → α) : List (κ × α) :=
  match alookup l k with
  | none => l
  | some v => aset l k (f v)

/-! ### Marks, winners, boards (`checkWinner`, board predicates) -/

inductive Mark where
  | X
  | O
deriving DecidableEq

inductive Winner where
  | player (id : Nat)
  | tie
deriving DecidableEq

/-- A tic-tac-toe board.  JS: an array created as `Array(9).fill(null)`;
see the header comment for why a total function is a faithful model. -/
abbrev Board := Nat → Option Mark

/-- The 8 winning lines of `checkWinner` (3 rows, 3 columns, 2 diagonals). -/
def winLines : List (Nat × Nat × Nat) :=
  [(0, 1, 2), (3, 4, 5), (6, 7, 8),
   (0, 3, 6), (1, 4, 7), (2, 5, 8),
   (0, 4, 8), (2, 4, 6)]

/-- The `for (const [a,b,c] of lines)` loop of `checkWinner`: return the mark
of the first line that is fully owned by one mark, else `null`. -/
def scanLines (b : Board) : List (Nat × Nat × Nat) → Option Mark
  | [] => none
  | (i, j, k) :: rest =>
      match b i with
      | some m => if b j = some m ∧ b k = some m then some m else scanLines b rest
      | none => scanLines b rest

/-- `checkWinner(board)`: `'X'`, `'O'` or `null`. -/
def checkWinner (b : Board) : Option Mark := scanLines b winLines

/-- Spec-side predicate: the line `t` is fully owned by mark `m`. -/
def lineOwned (b : Board) (t : Nat × Nat × Nat) (m : Mark) : Prop :=
  b t.1 = some m ∧ b t.2.1 = some m ∧ b t.2.2 = some m

instance (b : Board) (t : Nat × Nat × Nat) (m : Mark) :
    Decidable (lineOwned b t m) := by
  unfold lineOwned; infer_instance

/-- Spec-side predicate: some winning triple is fully owned by mark `m`. -/
def hasWinLine (b : Board) (m : Mark) : Prop :=
  ∃ t ∈ winLines, lineOwned b t m

instance (b : Board) (m : Mark) : Decidable (hasWinLine b m) := by
  unfold hasWinLine; infer_instance

/-- `board.every(c => c !== null)` (see the header comment). -/
def boardFull (b : Board) : Bool :=
  (List.range 9).all fun i => (b i).isSome

/-- The first 9 cells of the board, as broadcast in game-update payloads. -/
def boardCells (b : Board) : List (Option Mark) :=
  (List.range 9).map b

/-! ### Game sessions (`activeGames` entries) and the move/forfeit logic -/

/-- One entry of `activeGames`:
`{ players:[challengerId, challengedId], board, currentTurn, winner }`. -/
structure Game where
  players : Nat × Nat
  board : Board
  currentTurn : Nat
  winner : Option Winner

/-- The game created by `acceptChallenge`:
`{ players, board: Array(9).fill(null), currentTurn: challengerId, winner: null }`. -/
def freshGame (challengerId challengedId : Nat) : Game :=
  { players := (challengerId, challengedId)
    board := fun _ => none
    currentTurn := challengerId
    winner := none }

/-- The validation of the `makeMove` handler — negation of
`game.currentTurn !== userId || game.board[cellIndex] || game.winner`.
Note that there is no bounds check on `cellIndex`. -/
def moveAllowed (g : Game) (userId cellIndex : Nat) : Prop :=
  g.currentTurn = userId ∧ (g.board cellIndex).isNone ∧ g.winner.isNone

instance (g : Game) (userId cellIndex : Nat) :
    Decidable (moveAllowed g userId cellIndex) := by
  unfold moveAllowed; infer_instance

/-- `const mark = (userId == p1) ? 'X' : 'O'`. -/
def moverMark (g : Game) (userId : Nat) : Mark :=
  if userId = g.players.1 then Mark.X else Mark.O

/-- The board after `game.board[cellIndex] = mark`. -/
def moveBoard (g : Game) (userId cellIndex : Nat) : Board :=
  fun i => if i = cellIndex then some (moverMark g userId) else g.board i

/-- `game.winner = (winnerMark === 'X') ? p1 : p2`: translate the winning
mark back to the participant owning it. -/
def markOwner (g : Game) (m : Mark) : Nat :=
  if m = Mark.X then g.players.1 else g.players.2

/-- The mutation part of the `makeMove` handler (after validation passed):
write the mover's mark, then set the winner from `checkWinner`, else declare
a tie on a full board, else switch the turn. -/
def applyMove (g : Game) (userId cellIndex : Nat) : Game :=
  match checkWinner (moveBoard g userId cellIndex) with
  | some m =>
      { g with board := moveBoard g userId cellIndex
               winner := some (Winner.player (markOwner g m)) }
  | none =>
      if boardFull (moveBoard g userId cellIndex) then
        { g with board := moveBoard g userId cellIndex
                 winner := some Winner.tie }
      else
        { g with board := moveBoard g userId cellIndex
                 currentTurn :=
                   if userId = g.players.1 then g.players.2 else g.players.1 }

/-- The whole game-state effect of one `makeMove` message on its game. -/
def moveGame (g : Game) (userId cellIndex : Nat) : Game :=
  if moveAllowed g userId cellIndex then applyMove g userId cellIndex else g

/-- The game-state effect of `quitGame`:
`if (!game.winner) { game.winner = (p1 == userId) ? p2 : p1 }`. -/
def forfeitGame (g : Game) (userId : Nat) : Game :=
  if g.winner.isSome then g
  else
    let other := if g.players.1 = userId then g.players.2 else g.players.1
    { g with winner := some (Winner.player other) }

/-- A move that the specification calls valid: passes the handler's checks
and is inside the board. -/
def validFor (g : Game) (userId cellIndex : Nat) : Prop :=
  moveAllowed g userId cellIndex ∧ cellIndex < 9

instance (g : Game) (userId cellIndex : Nat) :
    Decidable (validFor g userId cellIndex) := by
  unfold validFor; infer_instance

/-- Applying a whole list of `(userId, cellIndex)` moves in order. -/
def applySeq (g : Game) : List (Nat × Nat) → Game
  | [] => g
  | (u, i) :: rest => applySeq (moveGame g u i) rest

/-- Every move of the list is valid at the point where it is applied. -/
def seqValid (g : Game) : List (Nat × Nat) → Prop
  | [] => True
  | (u, i) :: rest => validFor g u i ∧ seqValid (moveGame g u i) rest

instance instDecSeqValid : (ms : List (Nat × Nat)) → (g : Game) →
    Decidable (seqValid g ms)
  | [], _ => by unfold seqValid; infer_instance
  | (u, i) :: rest, g =>
      have : Decidable (seqValid (moveGame g u i) rest) :=
        instDecSeqValid rest (moveGame g u i)
      by unfold seqValid; infer_instance

/-! ### Server state, events and the socket handlers -/

/-- A row of the `users` table (stats columns; the display-name fallback
chain is collapsed into `displayName`). -/
structure UserRow where
  displayName : String
  gamesCount : Nat
  gamesWon : Nat
  gamesLost : Nat
deriving DecidableEq

/-- One entry of `onlineUsers`:
`{ userId, socketId, name, inGame, gamesCount, gamesWon, gamesLost }`. -/
structure PresenceEntry where
  userId : Nat
  socketId : Nat
  name : String
  inGame : Bool
  gamesCount : Nat
  gamesWon : Nat
  gamesLost : Nat
deriving DecidableEq

/-- One entry of `pendingChallenges`:
`{ challengerId, challengedId, time }`. -/
structure Challenge where
  challengerId : Nat
  challengedId : Nat
  time : Nat
deriving DecidableEq

/-- One element of the `onlinePlayers` broadcast payload. -/
structure LobbySummary where
  userId : Nat
  displayName : String
  inGame : Bool
  gamesCount : Nat
  gamesWon : Nat
  gamesLost : Nat
deriving DecidableEq

/-- A socket emission.  Targeted events carry the destination socket id. -/
inductive Event where
  | errorMsg (sock : Nat) (text : String)
  | challengeReceived (sock : Nat) (fromId : Nat) (fromName : String)
  | challengeRefused (sock : Nat) (refusedBy : Nat)
  | gameStarted (sock : Nat) (gameId : String) (opponentId : Nat)
  | updateGame (sock : Nat) (board : List (Option Mark)) (currentTurn : Nat)
      (winner : Option Winner)
  | gameEnded (sock : Nat) (winner : Option Winner)
  | onlinePlayers (payload : List LobbySummary)
deriving DecidableEq

/-- The three in-memory maps of the server together with the `users` table
of the database collaborator (keyed by internal id). -/
structure ServerState where
  onlineUsers : List (Nat × PresenceEntry)
  activeGames : List (String × Game)
  pendingChallenges : List (Nat × Challenge)
  db : Nat → Option UserRow

/-- `` `game_${Date.now()}_${challengerId}_${challengedId}` ``. -/
def mkGameId (now challengerId challengedId : Nat) : String :=
  "game_" ++ toString now ++ "_" ++ toString challengerId ++ "_" ++
    toString challengedId

/-- The `onlinePlayers` broadcast of `broadcastLobby`. -/
def lobbyPayload (s : ServerState) : List LobbySummary :=
  s.onlineUsers.map fun p =>
    { userId := p.2.userId
      displayName := p.2.name
      inGame := p.2.inGame
      gamesCount := p.2.gamesCount
      gamesWon := p.2.gamesWon
      gamesLost := p.2.gamesLost }

def broadcastLobby (s : ServerState) : Event :=
  Event.onlinePlayers (lobbyPayload s)

/-- The `joinLobby` handler: look the user up in the database, emit
`errorMsg` when absent, otherwise insert/overwrite the presence entry (with
`inGame: false` and the stats read from the row) and broadcast. -/
def handleJoinLobby (s : ServerState) (sock userId : Nat) :
    ServerState × List Event :=
  match s.db userId with
  | none => (s, [Event.errorMsg sock "User not found"])
  | some row =>
      let entry : PresenceEntry :=
        { userId := userId
          socketId := sock
          name := row.displayName
          inGame := false
          gamesCount := row.gamesCount
          gamesWon := row.gamesWon
          gamesLost := row.gamesLost }
      let s' := { s with onlineUsers := aset s.onlineUsers userId entry }
      (s', [broadcastLobby s'])

/-- The `sendChallenge` handler. -/
def handleSendChallenge (s : ServerState)
    (sock challengerId challengedId now : Nat) : ServerState × List Event :=
  match alookup s.onlineUsers challengerId,
        alookup s.onlineUsers challengedId with
  | some challenger, some challenged =>
      if challenged.inGame then
        (s, [Event.errorMsg sock "That user is currently in a game."])
      else
        let ch : Challenge :=
          { challengerId := challengerId
            challengedId := challengedId
            time := now }
        ({ s with pendingChallenges := aset s.pendingChallenges challengedId ch },
         [Event.challengeReceived challenged.socketId challengerId
            challenger.name])
  | _, _ => (s, [Event.errorMsg sock "User is offline or not found."])

/-- The `acceptChallenge` handler. -/
def handleAcceptChallenge (s : ServerState) (sock now challengedId : Nat) :
    ServerState × List Event :=
  match alookup s.pendingChallenges challengedId with
  | none => (s, [Event.errorMsg sock "No challenge found to accept."])
  | some ch =>
      let challengerId := ch.challengerId
      let gameId := mkGameId now challengerId challengedId
      let g := freshGame challengerId challengedId
      let users :=
        aupdate (aupdate s.onlineUsers challengerId fun e => { e with inGame := true })
          challengedId fun e => { e with inGame := true }
      let s' : ServerState :=
        { s with
            pendingChallenges := aremove s.pendingChallenges challengedId
            activeGames := aset s.activeGames gameId g
            onlineUsers := users }
      let ev1 :=
        match alookup users challengerId with
        | some e => [Event.gameStarted e.socketId gameId challengedId]
        | none => []
      let ev2 :=
        match alookup users challengedId with
        | some e => [Event.gameStarted e.socketId gameId challengerId]
        | none => []
      (s', ev1 ++ ev2 ++ [broadcastLobby s'])

/-- The `refuseChallenge` handler. -/
def handleRefuseChallenge (s : ServerState) (challengedId : Nat) :
    ServerState × List Event :=
  match alookup s.pendingChallenges challengedId with
  | none => (s, [])
  | some ch =>
      let s' :=
        { s with pendingChallenges := aremove s.pendingChallenges challengedId }
      let evs :=
        match alookup s'.onlineUsers ch.challengerId with
        | some e => [Event.challengeRefused e.socketId challengedId]
        | none => []
      (s', evs)

/-- `game.players.forEach(pid => { if (onlineUsers[pid]) ... emit ... })`. -/
def emitToPlayers (users : List (Nat × PresenceEntry)) (g : Game)
    (f : PresenceEntry → Event) : List Event :=
  [g.players.1, g.players.2].filterMap fun pid => (alookup users pid).map f

/-- The `makeMove` handler: silent no-op when the game is unknown or any
validation check fails; otherwise apply the move and send `updateGame` to
both (present) players. -/
def handleMakeMove (s : ServerState) (gameId : String) (userId cellIndex : Nat) :
    ServerState × List Event :=
  match alookup s.activeGames gameId with
  | none => (s, [])
  | some g =>
      if moveAllowed g userId cellIndex then
        let g' := applyMove g userId cellIndex
        let s' := { s with activeGames := aset s.activeGames gameId g' }
        (s', emitToPlayers s'.onlineUsers g' fun e =>
          Event.updateGame e.socketId (boardCells g'.board) g'.currentTurn
            g'.winner)
      else (s, [])

/-- `updateStats(userId, winner)`: no-op when the user is not online; else
increment `games_count` always, `games_won` when the user is the winner,
`games_lost` when neither winner nor tie. -/
def updateStats (s : ServerState) (userId : Nat) (winner : Option Winner) :
    ServerState :=
  if (alookup s.onlineUsers userId).isNone then s
  else
    let isWinner := winner = some (Winner.player userId)
    let isTie := winner = some Winner.tie
    let lostFlag := ¬ isWinner ∧ ¬ isTie
    let upd : UserRow → UserRow := fun row =>
      { row with
          gamesCount := row.gamesCount + 1
          gamesWon := row.gamesWon + (if isWinner then 1 else 0)
          gamesLost := row.gamesLost + (if lostFlag then 1 else 0) }
    { s with db := fun u => if u = userId then (s.db u).map upd else s.db u }

/-- `endGame(gameId)`: update both players' stats, then for each present
player clear `inGame` and emit `gameEnded`, delete the game and broadcast. -/
def endGame (s : ServerState) (gameId : String) : ServerState × List Event :=
  match alookup s.activeGames gameId with
  | none => (s, [])
  | some g =>
      let p1 := g.players.1
      let p2 := g.players.2
      let w := g.winner
      let s2 := updateStats (updateStats s p1 w) p2 w
      let evs := emitToPlayers s2.onlineUsers g fun e =>
        Event.gameEnded e.socketId w
      let users :=
        aupdate (aupdate s2.onlineUsers p1 fun e => { e with inGame := false })
          p2 fun e => { e with inGame := false }
      let s3 : ServerState :=
        { s2 with
            onlineUsers := users
            activeGames := aremove s2.activeGames gameId }
      (s3, evs ++ [broadcastLobby s3])

/-- The `quitGame` handler: unknown game is a no-op; else forfeit when the
winner is unset, and always run `endGame`. -/
def handleQuitGame (s : ServerState) (gameId : String) (userId : Nat) :
    ServerState × List Event :=
  match alookup s.activeGames gameId with
  | none => (s, [])
  | some g =>
      let g' := forfeitGame g userId
      endGame { s with activeGames := aset s.activeGames gameId g' } gameId

/-- The `disconnect` handler: find the presence entry by socket id, remove
it and broadcast; no forfeit or game teardown is performed. -/
def handleDisconnect (s : ServerState) (sock : Nat) :
    ServerState × List Event :=
  match s.onlineUsers.find? fun p => p.2.socketId == sock with
  | none => (s, [])
  | some p =>
      let s' := { s with onlineUsers := aremove s.onlineUsers p.2.userId }
      (s', [broadcastLobby s'])

/-! ### Inbound messages and reachable states -/

/-- The inbound socket messages handled by the server.  `acceptChallenge`
carries the `Date.now()` value used to build the game id, `sendChallenge`
the one stored in the challenge. -/
inductive Op where
  | joinLobby (sock userId : Nat)
  | sendChallenge (sock challengerId challengedId now : Nat)
  | acceptChallenge (sock now challengedId : Nat)
  | refuseChallenge (challengedId : Nat)
  | makeMove (gameId : String) (userId cellIndex : Nat)
  | quitGame (gameId : String) (userId : Nat)
  | disconnect (sock : Nat)

/-- Dispatch one inbound message to its handler. -/
def step (s : ServerState) : Op → ServerState × List Event
  | Op.joinLobby sock userId => handleJoinLobby s sock userId
  | Op.sendChallenge sock c1 c2 now => handleSendChallenge s sock c1 c2 now
  | Op.acceptChallenge sock now c2 => handleAcceptChallenge s sock now c2
  | Op.refuseChallenge c2 => handleRefuseChallenge s c2
  | Op.makeMove gid u i => handleMakeMove s gid u i
  | Op.quitGame gid u => handleQuitGame s gid u
  | Op.disconnect sock => handleDisconnect s sock

/-- Environment assumption on a message: a clock-generated game id is fresh
(`Date.now()` strictly grows between two session creations, so the key built
by `acceptChallenge` is not already present in `activeGames`). -/
def opOk (s : ServerState) : Op → Prop
  | Op.acceptChallenge _ now c2 =>
      ∀ ch, alookup s.pendingChallenges c2 = some ch →
        alookup s.activeGames (mkGameId now ch.challengerId c2) = none
  | _ => True

/-- The server starts with the three maps empty (`{}`); the database table
may hold anything.  States are reached by dispatching messages whose
clock-generated ids are fresh. -/
inductive Reachable : ServerState → Prop where
  | init (db : Nat → Option UserRow) :
      Reachable { onlineUsers := [], activeGames := [],
                  pendingChallenges := [], db := db }
  | next (s : ServerState) (op : Op) :
      Reachable s → opOk s op → Reachable (step s op).1

end LoginTL

namespace Part004

open LoginTL

/-!  The rematch variant of the server, `src/unnamed/part_004`: its
`activeGames` entries additionally carry `replayVotes` (a JS object used as
a set of user ids), and its `requestReplay` handler resets the game when
both players have voted. -/

/-- One entry of `activeGames` in the part_004 variant. -/
structure Game4 where
  players : Nat × Nat
  board : Board
  currentTurn : Nat
  winner : Option Winner
  replayVotes : List Nat

/-- `game.replayVotes[userId] = true` on the object-as-set. -/
def insertVote (votes : List Nat) (userId : Nat) : List Nat :=
  if userId ∈ votes then votes else votes ++ [userId]

/-- The part_004 state, restricted to the two maps `requestReplay` reads. -/
structure State4 where
  onlineUsers : List (Nat × PresenceEntry)
  activeGames : List (String × Game4)

/-- The `requestReplay` handler of part_004: record the vote; when both
players have voted, reset the board and the winner, set `currentTurn` to
`players[0]`, and emit `updateGame` to both players.  The vote set is not
cleared.  (When a player is offline the JS code would throw on
`onlineUsers[pid].socketId`; emissions are modelled only for present
players, and the claim about this handler assumes both present.) -/
def handleRequestReplay (s : State4) (gameId : String) (userId : Nat) :
    State4 × List Event :=
  match alookup s.activeGames gameId with
  | none => (s, [])
  | some g =>
      let votes := insertVote g.replayVotes userId
      if g.players.1 ∈ votes ∧ g.players.2 ∈ votes then
        let g2 : Game4 :=
          { g with
              board := fun _ => none
              winner := none
              currentTurn := g.players.1
              replayVotes := votes }
        let s' : State4 :=
          { s with activeGames := aset s.activeGames gameId g2 }
        let evs :=
          [g.players.1, g.players.2].filterMap fun pid =>
            (alookup s.onlineUsers pid).map fun e =>
              Event.updateGame e.socketId (boardCells g2.board) g2.currentTurn
                g2.winner
        (s', evs)
      else
        let g1 : Game4 := { g with replayVotes := votes }
        ({ s with activeGames := aset s.activeGames gameId g1 }, [])

end Part004

namespace LoginTL

/-! ### Derived predicates named in the claims -/

/-- The `occupied` invariant of the specification, in the direction that the
code maintains: an `inGame` flag is only ever true for a participant of some
stored game. -/
def occupiedSound (s : ServerState) : Prop :=
  ∀ u e, alookup s.onlineUsers u = some e → e.inGame = true →
    ∃ gid g, alookup s.activeGames gid = some g ∧
      (u = g.players.1 ∨ u = g.players.2)

/-- The stats snapshot cached inside a presence entry at join time. -/
def cachedStats (e : PresenceEntry) : Nat × Nat × Nat :=
  (e.gamesCount, e.gamesWon, e.gamesLost)

/-- The presence entry built by `joinLobby` from a database row. -/
def joinEntry (sock userId : Nat) (row : UserRow) : PresenceEntry :=
  { userId := userId
    socketId := sock
    name := row.displayName
    inGame := false
    gamesCount := row.gamesCount
    gamesWon := row.gamesWon
    gamesLost := row.gamesLost }

/-! ### Concrete fixtures for the claim instances -/

def rowA : UserRow := { displayName := "Alice", gamesCount := 0, gamesWon := 0, gamesLost := 0 }

def rowB : UserRow := { displayName := "Bob", gamesCount := 0, gamesWon := 0, gamesLost := 0 }

/-- A two-row `users` table. -/
def db2 : Nat → Option UserRow :=
  fun u => if u = 1 then some rowA else if u = 2 then some rowB else none

def entry1 : PresenceEntry :=
  { userId := 1, socketId := 10, name := "Alice", inGame := true,
    gamesCount := 0, gamesWon := 0, gamesLost := 0 }

def entry2 : PresenceEntry :=
  { userId := 2, socketId := 20, name := "Bob", inGame := true,
    gamesCount := 0, gamesWon := 0, gamesLost := 0 }

def entry1f : PresenceEntry := { entry1 with inGame := false }

def entry2f : PresenceEntry := { entry2 with inGame := false }

/-- Both users online and playing the fresh game `"g1"`. -/
def sLive : ServerState :=
  { onlineUsers := [(1, entry1), (2, entry2)]
    activeGames := [("g1", freshGame 1 2)]
    pendingChallenges := []
    db := db2 }

/-- A finished board: X owns the top row. -/
def bWon : Board :=
  fun i => if i ≤ 2 then some Mark.X
           else if i = 3 ∨ i = 4 then some Mark.O else none

/-- The game after player 1 completed the top row. -/
def gWon : Game :=
  { players := (1, 2), board := bWon, currentTurn := 1,
    winner := some (Winner.player 1) }

/-- Both users online; `"g1"` already won by player 1. -/
def sWon : ServerState :=
  { onlineUsers := [(1, entry1), (2, entry2)]
    activeGames := [("g1", gWon)]
    pendingChallenges := []
    db := db2 }

/-- Player 2 has disconnected while `"g1"` (won by player 1) is still
stored. -/
def sC7 : ServerState :=
  { onlineUsers := [(1, entry1)]
    activeGames := [("g1", gWon)]
    pendingChallenges := []
    db := db2 }

def chal12 : Challenge := { challengerId := 1, challengedId := 2, time := 5 }

/-- Both users online and idle, with a pending challenge from 1 to 2. -/
def sChal : ServerState :=
  { onlineUsers := [(1, entry1f), (2, entry2f)]
    activeGames := []
    pendingChallenges := [(2, chal12)]
    db := db2 }

/-- X at cells 0 and 1, O at cells 3 and 4: player 1 is about to win. -/
def bRow : Board :=
  fun i => if i = 0 ∨ i = 1 then some Mark.X
           else if i = 3 ∨ i = 4 then some Mark.O else none

def gRow : Game :=
  { players := (1, 2), board := bRow, currentTurn := 1, winner := none }

/-- Eight cells filled with no line for either mark: X O X / X O O / O X _.
Player 1 is about to fill the last cell. -/
def bTiePre : Board :=
  fun i =>
    if i = 0 ∨ i = 2 ∨ i = 3 ∨ i = 7 then some Mark.X
    else if i = 1 ∨ i = 4 ∨ i = 5 ∨ i = 6 then some Mark.O else none

def gTie : Game :=
  { players := (1, 2), board := bTiePre, currentTurn := 1, winner := none }

/-- A five-message run: both users join, 1 challenges 2, 2 accepts, then 1
re-issues `joinLobby` from a new socket while the game is live. -/
def s9a : ServerState :=
  (step { onlineUsers := [], activeGames := [], pendingChallenges := [],
          db := db2 } (Op.joinLobby 10 1)).1

def s9b : ServerState := (step s9a (Op.joinLobby 20 2)).1

def s9c : ServerState := (step s9b (Op.sendChallenge 10 1 2 5)).1

def s9d : ServerState := (step s9c (Op.acceptChallenge 20 7 2)).1

def s9e : ServerState := (step s9d (Op.joinLobby 11 1)).1

end LoginTL

namespace Part004

open LoginTL

/-- A part_004 game between the still-connected users 1 and 2, with the turn
on player 2 and a rematch vote already recorded for player 1. -/
def g4 : Game4 :=
  { players := (1, 2), board := bWon, currentTurn := 2,
    winner := none, replayVotes := [1] }

def s4 : State4 :=
  { onlineUsers := [(1, entry1), (2, entry2)]
    activeGames := [("g1", g4)] }

end Part004

namespace LoginTL

/-! ### Lemmas about the map helpers -/

theorem alookup_aset_self {κ α : Type} [DecidableEq κ] (l : List (κ × α))
    (k : κ) (v : α) : alookup (aset l k v) k = some v := by
  induction l with
  | nil => simp [aset, alookup]
  | cons p rest ih =>
      obtain ⟨k0, v0⟩ := p
      by_cases h : k = k0
      · simp [aset, h, alookup]
      · simp [aset, h, alookup, ih]

theorem alookup_aset_ne {κ α : Type} [DecidableEq κ] (l : List (κ × α))
    (k k' : κ) (v : α) (h : k' ≠ k) :
    alookup (aset l k v) k' = alookup l k' := by
  induction l with
  | nil => simp [aset, alookup, h]
  | cons p rest ih =>
      obtain ⟨k0, v0⟩ := p
      by_cases h0 : k = k0
      · subst h0
        simp [aset, alookup, h]
      · by_cases h1 : k' = k0
        · simp [aset, h0, alookup, h1]
        · simp [aset, h0, alookup, h1, ih]

theorem alookup_aremove_self {κ α : Type} [DecidableEq κ] (l : List (κ × α))
    (k : κ) : alookup (aremove l k) k = none := by
  induction l with
  | nil => simp [aremove, alookup]
  | cons p rest ih =>
      obtain ⟨k0, v0⟩ := p
      by_cases h : k = k0
      · subst h
        simp [aremove, ih]
      · simp [aremove, h, alookup, ih, Ne.symm h]

theorem alookup_aremove_ne {κ α : Type} [DecidableEq κ] (l : List (κ × α))
    (k k' : κ) (h : k' ≠ k) : alookup (aremove l k) k' = alookup l k' := by
  induction l with
  | nil => simp [aremove]
  | cons p rest ih =>
      obtain ⟨k0, v0⟩ := p
      by_cases h0 : k = k0
      · subst h0
        simp [aremove, alookup, h, ih]
      · by_cases h1 : k' = k0
        · simp [aremove, h0, alookup, h1]
        · simp [aremove, h0, alookup, h1, ih]

theorem alookup_aupdate {κ α : Type} [DecidableEq κ] (l : List (κ × α))
    (k k' : κ) (f : α → α) :
    alookup (aupdate l k f) k' =
      if k' = k then (alookup l k).map f else alookup l k' := by
  unfold aupdate
  by_cases h : k' = k
  · subst h
    cases hv : alookup l k' with
    | none => simp [hv]
    | some v => simp [hv, alookup_aset_self]
  · cases hv : alookup l k with
    | none => simp [h]
    | some v => simp [h, alookup_aset_ne l k k' (f v) h]

theorem alookup_mem {κ α : Type} [DecidableEq κ] (l : List (κ × α)) (k : κ)
    (v : α) (h : alookup l k = some v) : (k, v) ∈ l := by
  induction l with
  | nil => simp [alookup] at h
  | cons p rest ih =>
      obtain ⟨k0, v0⟩ := p
      by_cases h0 : k = k0
      · subst h0
        simp [alookup] at h
        simp [h]
      · simp [alookup, h0] at h
        exact List.mem_cons_of_mem _ (ih h)

/-! ### Lemmas about `checkWinner` -/

theorem scanLines_eq_some {b : Board} {L : List (Nat × Nat × Nat)} {m : Mark}
    (h : scanLines b L = some m) : ∃ t ∈ L, lineOwned b t m := by
  induction L with
  | nil => simp [scanLines] at h
  | cons t rest ih =>
      obtain ⟨i, j, k⟩ := t
      unfold scanLines at h
      cases hb : b i with
      | none =>
          rw [hb] at h
          obtain ⟨t', ht', hown⟩ := ih h
          exact ⟨t', List.mem_cons_of_mem _ ht', hown⟩
      | some m0 =>
          rw [hb] at h
          dsimp only at h
          by_cases hc : b j = some m0 ∧ b k = some m0
          · rw [if_pos hc] at h
            cases h
            exact ⟨(i, j, k), List.mem_cons_self _ _, ⟨hb, hc.1, hc.2⟩⟩
          · rw [if_neg hc] at h
            obtain ⟨t', ht', hown⟩ := ih h
            exact ⟨t', List.mem_cons_of_mem _ ht', hown⟩

theorem scanLines_eq_none {b : Board} {L : List (Nat × Nat × Nat)}
    (h : scanLines b L = none) :
    ∀ t ∈ L, ∀ m, ¬ lineOwned b t m := by
  induction L with
  | nil => intro t ht; simp at ht
  | cons t0 rest ih =>
      obtain ⟨i, j, k⟩ := t0
      unfold scanLines at h
      intro t ht m hown
      cases hb : b i with
      | none =>
          rw [hb] at h
          rcases List.mem_cons.mp ht with rfl | ht'
          · exact absurd hown.1 (by simp [hb])
          · exact ih h t ht' m hown
      | some m0 =>
          rw [hb] at h
          dsimp only at h
          by_cases hc : b j = some m0 ∧ b k = some m0
          · rw [if_pos hc] at h; cases h
          · rw [if_neg hc] at h
            rcases List.mem_cons.mp ht with rfl | ht'
            · obtain ⟨h1, h2, h3⟩ := hown
              rw [hb] at h1
              cases h1
              exact hc ⟨h2, h3⟩
            · exact ih h t ht' m hown

theorem checkWinner_none_iff (b : Board) :
    checkWinner b = none ↔ ∀ m, ¬ hasWinLine b m := by
  constructor
  · intro h m ⟨t, ht, hown⟩
    exact scanLines_eq_none h t ht m hown
  · intro h
    cases hc : checkWinner b with
    | none => rfl
    | some m =>
        obtain ⟨t, ht, hown⟩ := scanLines_eq_some hc
        exact absurd ⟨t, ht, hown⟩ (h m)

theorem checkWinner_some_hasWinLine {b : Board} {m : Mark}
    (h : checkWinner b = some m) : hasWinLine b m :=
  scanLines_eq_some h

theorem checkWinner_eq_none {b : Board} (h : ∀ m, ¬ hasWinLine b m) :
    checkWinner b = none :=
  (checkWinner_none_iff b).mpr h

/-! ### Lemmas about single moves -/

theorem moveGame_of_allowed {g : Game} {u i : Nat}
    (h : moveAllowed g u i) : moveGame g u i = applyMove g u i :=
  if_pos h

theorem moveGame_of_not_allowed {g : Game} {u i : Nat}
    (h : ¬ moveAllowed g u i) : moveGame g u i = g :=
  if_neg h

theorem applyMove_board (g : Game) (u i : Nat) :
    (applyMove g u i).board = moveBoard g u i := by
  unfold applyMove
  cases checkWinner (moveBoard g u i) with
  | some m => rfl
  | none =>
      by_cases hf : boardFull (moveBoard g u i)
      · simp [hf]
      · simp [hf]

theorem applyMove_players (g : Game) (u i : Nat) :
    (applyMove g u i).players = g.players := by
  unfold applyMove
  cases checkWinner (moveBoard g u i) with
  | some m => rfl
  | none =>
      by_cases hf : boardFull (moveBoard g u i)
      · simp [hf]
      · simp [hf]

theorem moveGame_players (g : Game) (u i : Nat) :
    (moveGame g u i).players = g.players := by
  unfold moveGame
  by_cases h : moveAllowed g u i
  · simp [h, applyMove_players]
  · simp [h]

theorem moveGame_winner_persist {g : Game} {w : Winner} (u i : Nat)
    (h : g.winner = some w) : (moveGame g u i).winner = some w := by
  have : ¬ moveAllowed g u i := by
    intro ⟨_, _, hn⟩
    rw [h] at hn
    simp [Option.isNone] at hn
  rw [moveGame_of_not_allowed this]
  exact h

theorem forfeitGame_winner_persist {g : Game} {w : Winner} (u : Nat)
    (h : g.winner = some w) : (forfeitGame g u).winner = some w := by
  unfold forfeitGame
  simp [h]

theorem applyMove_winner_of_some {g : Game} {u i : Nat} {m : Mark}
    (h : checkWinner (moveBoard g u i) = some m) :
    (applyMove g u i).winner = some (Winner.player (markOwner g m)) ∧
      (applyMove g u i).currentTurn = g.currentTurn := by
  unfold applyMove
  rw [h]
  exact ⟨rfl, rfl⟩

theorem applyMove_winner_of_tie {g : Game} {u i : Nat}
    (h : checkWinner (moveBoard g u i) = none)
    (hf : boardFull (moveBoard g u i) = true) :
    (applyMove g u i).winner = some Winner.tie ∧
      (applyMove g u i).currentTurn = g.currentTurn := by
  unfold applyMove
  rw [h]
  simp [hf]

theorem applyMove_of_open {g : Game} {u i : Nat}
    (h : checkWinner (moveBoard g u i) = none)
    (hf : boardFull (moveBoard g u i) = false) :
    (applyMove g u i).winner = g.winner ∧
      (applyMove g u i).currentTurn =
        (if u = g.players.1 then g.players.2 else g.players.1) := by
  unfold applyMove
  rw [h]
  simp [hf]

/-- Any line complete after a move but not before it goes through the moved
cell, so it carries the mover's mark. -/
theorem hasWinLine_moveBoard {g : Game} {u i : Nat} {mk : Mark}
    (hpre : checkWinner g.board = none)
    (h : hasWinLine (moveBoard g u i) mk) : mk = moverMark g u := by
  obtain ⟨t, ht, h1, h2, h3⟩ := h
  have hnone := (checkWinner_none_iff g.board).mp hpre
  by_cases e1 : t.1 = i
  · rw [show moveBoard g u i t.1 = some (moverMark g u) by
      simp [moveBoard, e1]] at h1
    exact (Option.some.injEq _ _ ▸ h1.symm : mk = moverMark g u)
  · by_cases e2 : t.2.1 = i
    · rw [show moveBoard g u i t.2.1 = some (moverMark g u) by
        simp [moveBoard, e2]] at h2
      exact (Option.some.injEq _ _ ▸ h2.symm : mk = moverMark g u)
    · by_cases e3 : t.2.2 = i
      · rw [show moveBoard g u i t.2.2 = some (moverMark g u) by
          simp [moveBoard, e3]] at h3
        exact (Option.some.injEq _ _ ▸ h3.symm : mk = moverMark g u)
      · exfalso
        apply hnone mk
        refine ⟨t, ht, ?_, ?_, ?_⟩
        · rw [show g.board t.1 = moveBoard g u i t.1 by
            simp [moveBoard, e1]]
          exact h1
        · rw [show g.board t.2.1 = moveBoard g u i t.2.1 by
            simp [moveBoard, e2]]
          exact h2
        · rw [show g.board t.2.2 = moveBoard g u i t.2.2 by
            simp [moveBoard, e3]]
          exact h3

/-! ### Lemmas about move sequences -/

theorem moveGame_board_mono {g : Game} {j : Nat} (u i : Nat)
    (h : (g.board j).isSome) : ((moveGame g u i).board j).isSome := by
  unfold moveGame
  by_cases ha : moveAllowed g u i
  · rw [if_pos ha, applyMove_board]
    unfold moveBoard
    by_cases hj : j = i
    · simp [hj]
    · simp [hj, h]
  · rw [if_neg ha]
    exact h

theorem seqValid_not_mem : ∀ {ms : List (Nat × Nat)} {g : Game} {i : Nat},
    (g.board i).isSome → seqValid g ms → i ∉ ms.map Prod.snd := by
  intro ms
  induction ms with
  | nil =>
      intro g i _ _
      simp
  | cons p rest ih =>
      intro g i h hs
      obtain ⟨u', i'⟩ := p
      obtain ⟨hv, hrest⟩ := hs
      simp only [List.map_cons, List.mem_cons]
      rintro (rfl | hmem)
      · have hempty := hv.1.2.1
        rw [Option.isNone_iff_eq_none] at hempty
        rw [hempty] at h
        simp at h
      · exact ih (moveGame_board_mono u' i' h) hrest hmem

theorem seqValid_snd_nodup : ∀ {ms : List (Nat × Nat)} {g : Game},
    seqValid g ms → (ms.map Prod.snd).Nodup := by
  intro ms
  induction ms with
  | nil =>
      intro g _
      simp
  | cons p rest ih =>
      intro g hs
      obtain ⟨u', i'⟩ := p
      obtain ⟨hv, hrest⟩ := hs
      simp only [List.map_cons, List.nodup_cons]
      constructor
      · apply seqValid_not_mem _ hrest
        rw [moveGame_of_allowed hv.1, applyMove_board]
        simp [moveBoard]
      · exact ih hrest

theorem seqValid_snd_lt : ∀ {ms : List (Nat × Nat)} {g : Game},
    seqValid g ms → ∀ j ∈ ms.map Prod.snd, j < 9 := by
  intro ms
  induction ms with
  | nil =>
      intro g _ j hj
      simp at hj
  | cons p rest ih =>
      intro g hs j hj
      obtain ⟨u', i'⟩ := p
      obtain ⟨hv, hrest⟩ := hs
      rcases List.mem_cons.mp hj with rfl | hj'
      · exact hv.2
      · exact ih hrest j hj'

theorem seqValid_length_le {ms : List (Nat × Nat)} {g : Game}
    (h : seqValid g ms) : ms.length ≤ 9 := by
  have hnd := seqValid_snd_nodup h
  have hlt := seqValid_snd_lt h
  have hcard : (ms.map Prod.snd).toFinset.card = (ms.map Prod.snd).length :=
    List.toFinset_card_of_nodup hnd
  have hsub : (ms.map Prod.snd).toFinset ⊆ Finset.range 9 := by
    intro x hx
    exact Finset.mem_range.mpr (hlt x (List.mem_toFinset.mp hx))
  have := Finset.card_le_card hsub
  rw [hcard, Finset.card_range, List.length_map] at this
  exact this

theorem applyMove_winner_isSome_of_full {g : Game} {u i : Nat}
    (hf : boardFull (moveBoard g u i) = true) :
    (applyMove g u i).winner.isSome := by
  unfold applyMove
  cases hc : checkWinner (moveBoard g u i) with
  | some m => simp
  | none => simp [hf]

theorem moveGame_winner_none_not_full {g : Game} {u i : Nat}
    (ha : moveAllowed g u i) (hw : (moveGame g u i).winner = none) :
    boardFull (moveGame g u i).board = false := by
  rw [moveGame_of_allowed ha] at hw ⊢
  rw [applyMove_board]
  by_contra hfull
  simp only [Bool.not_eq_false] at hfull
  have hs := applyMove_winner_isSome_of_full (g := g) (u := u) (i := i) hfull
  rw [hw] at hs
  simp at hs

theorem applySeq_winner_none_not_full :
    ∀ {ms : List (Nat × Nat)} {g : Game}, seqValid g ms →
      (g.winner = none → boardFull g.board = false) →
      (applySeq g ms).winner = none →
      boardFull (applySeq g ms).board = false := by
  intro ms
  induction ms with
  | nil =>
      intro g _ hbase hw
      exact hbase hw
  | cons p rest ih =>
      intro g hs hbase
      obtain ⟨u', i'⟩ := p
      obtain ⟨hv, hrest⟩ := hs
      exact ih hrest fun hw => moveGame_winner_none_not_full hv.1 hw

theorem boardFull_false_exists {b : Board} (h : boardFull b = false) :
    ∃ i, i < 9 ∧ b i = none := by
  by_contra hno
  push_neg at hno
  have hall : (List.range 9).all (fun i => (b i).isSome) = true := by
    rw [List.all_eq_true]
    intro i hi
    cases hbi : b i with
    | none => exact absurd hbi (hno i (List.mem_range.mp hi))
    | some m => rfl
  unfold boardFull at h
  rw [h] at hall
  cases hall

theorem exists_validFor_of_open {g : Game} (hw : g.winner = none)
    (hf : boardFull g.board = false) : ∃ i, validFor g g.currentTurn i := by
  obtain ⟨i, hi, hempty⟩ := boardFull_false_exists hf
  exact ⟨i, ⟨⟨rfl, by simp [hempty], by simp [hw]⟩, hi⟩⟩

theorem applyMove_winner_cases (g : Game) (u i : Nat) :
    (applyMove g u i).winner = g.winner ∨
      (applyMove g u i).winner = some (Winner.player g.players.1) ∨
      (applyMove g u i).winner = some (Winner.player g.players.2) ∨
      (applyMove g u i).winner = some Winner.tie := by
  unfold applyMove
  cases hc : checkWinner (moveBoard g u i) with
  | some m =>
      cases m with
      | X =>
          right; left
          simp [markOwner]
      | O =>
          right; right; left
          simp [markOwner]
  | none =>
      by_cases hf : boardFull (moveBoard g u i)
      · right; right; right
        simp [hf]
      · left
        simp [hf]

theorem moveGame_winner_cases (g : Game) (u i : Nat) :
    (moveGame g u i).winner = g.winner ∨
      (moveGame g u i).winner = some (Winner.player g.players.1) ∨
      (moveGame g u i).winner = some (Winner.player g.players.2) ∨
      (moveGame g u i).winner = some Winner.tie := by
  unfold moveGame
  by_cases ha : moveAllowed g u i
  · rw [if_pos ha]
    exact applyMove_winner_cases g u i
  · rw [if_neg ha]
    left
    rfl

theorem applySeq_winner_range :
    ∀ {ms : List (Nat × Nat)} {g : Game} (w : Winner),
      (applySeq g ms).winner = some w →
      g.winner = some w ∨ w = Winner.player g.players.1 ∨
        w = Winner.player g.players.2 ∨ w = Winner.tie := by
  intro ms
  induction ms with
  | nil =>
      intro g w h
      left
      exact h
  | cons p rest ih =>
      intro g w h
      obtain ⟨u', i'⟩ := p
      have hstep := ih (g := moveGame g u' i') w h
      have hp := moveGame_players g u' i'
      rcases hstep with h1 | h2 | h3 | h4
      · rcases moveGame_winner_cases g u' i' with hc | hc | hc | hc
        · left
          rw [← hc]
          exact h1
        · right; left
          rw [h1] at hc
          exact Option.some.injEq _ _ ▸ hc
        · right; right; left
          rw [h1] at hc
          exact Option.some.injEq _ _ ▸ hc
        · right; right; right
          rw [h1] at hc
          exact Option.some.injEq _ _ ▸ hc
      · right; left
        rw [← hp]
        exact h2
      · right; right; left
        rw [← hp]
        exact h3
      · right; right; right
        exact h4

end LoginTL

/-! ## The claims -/

open LoginTL

/-- C1 (amended): for every stored game, a `makeMove` message that fails one
of the handler's checks — target cell occupied, sender not `currentTurn`, or
`winner` already set — is a silent no-op: the server state is unchanged and
nothing is emitted.  (The original claim also listed `cellIndex` outside
[0,8] as a rejected input; the handler has no bounds check, see the
counterexample.) -/
theorem c1_failed_move_silent_noop (s : ServerState) (gid : String)
    (g : Game) (userId cellIndex : Nat)
    (hg : alookup s.activeGames gid = some g)
    (hfail : g.currentTurn ≠ userId ∨ (g.board cellIndex).isSome ∨
      g.winner.isSome) :
    handleMakeMove s gid userId cellIndex = (s, []) := by
  have hna : ¬ moveAllowed g userId cellIndex := by
    intro ⟨h1, h2, h3⟩
    rcases hfail with hf | hf | hf
    · exact hf h1
    · rw [Option.isNone_iff_eq_none] at h2
      rw [h2] at hf
      simp at hf
    · rw [Option.isNone_iff_eq_none] at h3
      rw [h3] at hf
      simp at hf
  unfold handleMakeMove
  rw [hg]
  simp [hna]

/-- C1 witness: a move out of turn on the live fixture changes nothing. -/
theorem c1_failed_move_silent_noop_witness :
    handleMakeMove sLive "g1" 2 0 = (sLive, []) :=
  c1_failed_move_silent_noop sLive "g1" (freshGame 1 2) 2 0 rfl
    (Or.inl (by decide))

/-- C1 counterexample: `cellIndex = 9` is outside [0,8], yet the move by
player 1 (whose turn it is) writes the mark at index 9 and switches
`currentTurn` to player 2 — not a no-op. -/
theorem c1_out_of_range_move_mutates :
    ¬ 9 < 9 ∧
    ((alookup (handleMakeMove sLive "g1" 1 9).1.activeGames "g1").map
      fun g => g.board 9) = some (some Mark.X) ∧
    ((alookup (handleMakeMove sLive "g1" 1 9).1.activeGames "g1").map
      fun g => g.currentTurn) = some 2 := by
  refine ⟨by decide, by decide, by decide⟩

/-- C2: evaluating the `disconnect` handler at a state where the departing
user 2 is a participant of the live game `"g1"` (winner unset): the presence
entry is removed and a lobby broadcast is emitted, but the game survives
with `winner` still unset and no `gameEnded` is sent — the code performs no
forfeit on disconnect, contradicting the claim. -/
theorem c2_disconnect_no_forfeit :
    alookup (handleDisconnect sLive 20).1.onlineUsers 2 = none ∧
    ((alookup (handleDisconnect sLive 20).1.activeGames "g1").map
      fun g => g.winner) = some none ∧
    (handleDisconnect sLive 20).2 =
      [Event.onlinePlayers [⟨1, "Alice", true, 0, 0, 0⟩]] := by
  refine ⟨by decide, by decide, by decide⟩

/-- C3: a valid move (checks pass, cell inside the board) on a game with no
pre-existing completed line (the data-model invariant for `winner` unset)
writes the mover's mark into the cell; then, if some winning triple is fully
owned by a mark, the winner becomes the participant owning that mark
(X ↦ challenger, O ↦ challenged); else if all 9 cells are filled the game is
tied; else the turn flips to the other participant.  The last two conjuncts
are the two concrete instances named by the claim: completing X at cells
0,1,2 resolves to X's owner, and filling a full board with no triple
resolves to a tie. -/
theorem c3_valid_move_poststate (g : Game) (u i : Nat)
    (hall : moveAllowed g u i) (hlt : i < 9)
    (hpre : checkWinner g.board = none)
    (hu : u = g.players.1 ∨ u = g.players.2) :
    (moveGame g u i).board = moveBoard g u i
    ∧ (∀ mk, hasWinLine (moveBoard g u i) mk →
        (moveGame g u i).winner = some (Winner.player (markOwner g mk)))
    ∧ ((∀ mk, ¬ hasWinLine (moveBoard g u i) mk) →
        boardFull (moveBoard g u i) = true →
        (moveGame g u i).winner = some Winner.tie)
    ∧ ((∀ mk, ¬ hasWinLine (moveBoard g u i) mk) →
        boardFull (moveBoard g u i) = false →
        (moveGame g u i).winner = none ∧
        (moveGame g u i).currentTurn =
          (if u = g.players.1 then g.players.2 else g.players.1))
    ∧ ((moveGame gRow 1 2).winner = some (Winner.player 1) ∧
        checkWinner (moveGame gRow 1 2).board = some Mark.X)
    ∧ ((moveGame gTie 1 8).winner = some Winner.tie ∧
        boardFull (moveGame gTie 1 8).board = true) := by
  rw [moveGame_of_allowed hall]
  refine ⟨applyMove_board g u i, ?_, ?_, ?_, by decide, by decide⟩
  · intro mk hwin
    cases hc : checkWinner (moveBoard g u i) with
    | none => exact absurd hwin ((checkWinner_none_iff _).mp hc mk)
    | some m' =>
        have hm' : m' = moverMark g u :=
          hasWinLine_moveBoard hpre (checkWinner_some_hasWinLine hc)
        have hmk : mk = moverMark g u := hasWinLine_moveBoard hpre hwin
        rw [hmk, ← hm']
        exact (applyMove_winner_of_some hc).1
  · intro hno hfull
    exact (applyMove_winner_of_tie (checkWinner_eq_none hno) hfull).1
  · intro hno hopen
    have h2 := applyMove_of_open (checkWinner_eq_none hno) hopen
    refine ⟨?_, h2.2⟩
    rw [h2.1]
    exact Option.isNone_iff_eq_none.mp hall.2.2

/-- C3 witness: player 1 completing the top row on the fixture updates the
board as described. -/
theorem c3_valid_move_poststate_witness :
    (moveGame gRow 1 2).board = moveBoard gRow 1 2 :=
  (c3_valid_move_poststate gRow 1 2 (by decide) (by decide) (by decide)
    (Or.inl (by decide))).1

/-- C4: from a fresh session, every sequence of moves that are valid at the
point of application has length at most 9; if the final state still has no
winner, a further valid move exists (so every maximal valid run ends with
the outcome set); any outcome ever set is `Won(p1)`, `Won(p2)` or `Tied`;
and once the winner is set, neither `makeMove` nor the forfeit step of
`quitGame` ever changes it. -/
theorem c4_terminal_within_nine (p1 p2 : Nat) (ms : List (Nat × Nat))
    (hseq : seqValid (freshGame p1 p2) ms)
    (g : Game) (u i : Nat) (w : Winner) (hw : g.winner = some w) :
    ms.length ≤ 9
    ∧ ((applySeq (freshGame p1 p2) ms).winner = none →
        ∃ j, validFor (applySeq (freshGame p1 p2) ms)
          (applySeq (freshGame p1 p2) ms).currentTurn j)
    ∧ (∀ w', (applySeq (freshGame p1 p2) ms).winner = some w' →
        w' = Winner.player p1 ∨ w' = Winner.player p2 ∨ w' = Winner.tie)
    ∧ (moveGame g u i).winner = some w
    ∧ (forfeitGame g u).winner = some w := by
  refine ⟨seqValid_length_le hseq, ?_, ?_,
    moveGame_winner_persist u i hw, forfeitGame_winner_persist u hw⟩
  · intro hnone
    have hnf := applySeq_winner_none_not_full hseq (fun _ => rfl) hnone
    exact exists_validFor_of_open hnone hnf
  · intro w' hw'
    rcases applySeq_winner_range w' hw' with h | h | h | h
    · exact Option.noConfusion h
    · exact Or.inl h
    · exact Or.inr (Or.inl h)
    · exact Or.inr (Or.inr h)

/-- C4 witness: a two-move valid run on the fresh fixture session. -/
theorem c4_terminal_within_nine_witness :
    ([((1 : Nat), (0 : Nat)), (2, 3)] : List (Nat × Nat)).length ≤ 9 :=
  (c4_terminal_within_nine 1 2 [(1, 0), (2, 3)] (by decide) gWon 1 0
    (Winner.player 1) rfl).1

/-- C8 (amended): in the part_004 variant, when after a `requestReplay` both
participants are in the vote set, the session is reset under the same
session id: board back to 9 empty cells, winner back to unset, and the reset
state is broadcast to both participants — but `currentTurn` is re-seeded to
the first participant (`players[0]`), not kept from the prior match, and the
vote set is retained, not cleared. -/
theorem c8_rematch_reset (s : Part004.State4) (gid : String)
    (g : Part004.Game4) (userId : Nat) (e1 e2 : PresenceEntry)
    (hg : alookup s.activeGames gid = some g)
    (hboth : g.players.1 ∈ Part004.insertVote g.replayVotes userId ∧
      g.players.2 ∈ Part004.insertVote g.replayVotes userId)
    (h1 : alookup s.onlineUsers g.players.1 = some e1)
    (h2 : alookup s.onlineUsers g.players.2 = some e2) :
    (∃ g2 : Part004.Game4,
      alookup (Part004.handleRequestReplay s gid userId).1.activeGames gid =
        some g2
      ∧ boardCells g2.board = List.replicate 9 none
      ∧ g2.winner = none
      ∧ g2.currentTurn = g.players.1
      ∧ g2.replayVotes = Part004.insertVote g.replayVotes userId
      ∧ g2.players = g.players)
    ∧ (Part004.handleRequestReplay s gid userId).2 =
        [Event.updateGame e1.socketId (List.replicate 9 none) g.players.1 none,
         Event.updateGame e2.socketId (List.replicate 9 none) g.players.1 none] := by
  unfold Part004.handleRequestReplay
  rw [hg]
  simp only [hboth, and_self, if_true]
  constructor
  · refine ⟨_, alookup_aset_self _ _ _, ?_, rfl, rfl, rfl, rfl⟩
    rfl
  · simp [h1, h2]
    rfl

/-- C8 counterexample: on the part_004 fixture (turn on player 2, vote
already recorded for player 1), player 2's rematch request resets the game
but sets `currentTurn` to player 1 — not the prior turn holder 2 — and
leaves both votes in the set instead of clearing it. -/
theorem c8_rematch_counterexample :
    Part004.g4.currentTurn = 2 ∧
    ((alookup (Part004.handleRequestReplay Part004.s4 "g1" 2).1.activeGames
      "g1").map fun g => g.currentTurn) = some 1 ∧
    ((alookup (Part004.handleRequestReplay Part004.s4 "g1" 2).1.activeGames
      "g1").map fun g => g.replayVotes) = some [1, 2] := by
  refine ⟨rfl, by decide, by decide⟩

namespace LoginTL

/-! ### Frame lemmas for the server handlers -/

theorem aset_id {κ α : Type} [DecidableEq κ] {l : List (κ × α)} {k : κ}
    {v : α} (h : alookup l k = some v) : aset l k v = l := by
  induction l with
  | nil => simp [alookup] at h
  | cons p rest ih =>
      obtain ⟨k0, v0⟩ := p
      by_cases h0 : k = k0
      · subst h0
        simp [alookup] at h
        simp [aset, h]
      · simp [alookup, h0] at h
        simp [aset, h0, ih h]

theorem forfeitGame_of_some {g : Game} (u : Nat) (h : g.winner.isSome) :
    forfeitGame g u = g :=
  if_pos h

theorem forfeitGame_of_none {g : Game} (u : Nat) (h : g.winner = none) :
    forfeitGame g u =
      { g with winner := some (Winner.player
          (if g.players.1 = u then g.players.2 else g.players.1)) } := by
  unfold forfeitGame
  simp [h]

theorem forfeitGame_players (g : Game) (u : Nat) :
    (forfeitGame g u).players = g.players := by
  unfold forfeitGame
  by_cases h : g.winner.isSome
  · rw [if_pos h]
  · rw [if_neg h]

theorem updateStats_onlineUsers (s : ServerState) (u : Nat)
    (w : Option Winner) : (updateStats s u w).onlineUsers = s.onlineUsers := by
  unfold updateStats
  split
  · rfl
  · rfl

theorem updateStats_activeGames (s : ServerState) (u : Nat)
    (w : Option Winner) : (updateStats s u w).activeGames = s.activeGames := by
  unfold updateStats
  split
  · rfl
  · rfl

theorem updateStats_db {s : ServerState} {u : Nat} {e : PresenceEntry}
    (h : alookup s.onlineUsers u = some e) (w : Option Winner) (x : Nat) :
    (updateStats s u w).db x =
      (if x = u then
        (s.db x).map fun row =>
          { row with
              gamesCount := row.gamesCount + 1
              gamesWon := row.gamesWon +
                (if w = some (Winner.player u) then 1 else 0)
              gamesLost := row.gamesLost +
                (if ¬ w = some (Winner.player u) ∧ ¬ w = some Winner.tie
                 then 1 else 0) }
      else s.db x) := by
  unfold updateStats
  rw [h]
  simp

/-- `updateStats` is a complete no-op for a user who is not in the presence
registry (`if (!onlineUsers[userId]) return`). -/
theorem updateStats_skip {s : ServerState} {u : Nat}
    (h : alookup s.onlineUsers u = none) (w : Option Winner) :
    updateStats s u w = s := by
  unfold updateStats
  rw [h]
  simp

/-- `updateStats` touches no database row other than its target's
(`WHERE id = ?`). -/
theorem updateStats_db_other {s : ServerState} {u : Nat} (w : Option Winner)
    {x : Nat} (hx : x ≠ u) : (updateStats s u w).db x = s.db x := by
  unfold updateStats
  split
  · rfl
  · dsimp only
    rw [if_neg hx]

theorem handleMakeMove_onlineUsers (s : ServerState) (gid : String)
    (u i : Nat) : (handleMakeMove s gid u i).1.onlineUsers = s.onlineUsers := by
  unfold handleMakeMove
  cases alookup s.activeGames gid with
  | none => rfl
  | some g =>
      dsimp only
      by_cases h : moveAllowed g u i
      · rw [if_pos h]
      · rw [if_neg h]

theorem endGame_activeGames {s : ServerState} {gid : String} {g : Game}
    (h : alookup s.activeGames gid = some g) :
    (endGame s gid).1.activeGames = aremove s.activeGames gid := by
  unfold endGame
  rw [h]
  dsimp only
  rw [updateStats_activeGames, updateStats_activeGames]

theorem endGame_events {s : ServerState} {gid : String} {g : Game}
    (h : alookup s.activeGames gid = some g) :
    (endGame s gid).2 =
      emitToPlayers s.onlineUsers g
        (fun e => Event.gameEnded e.socketId g.winner) ++
        [broadcastLobby (endGame s gid).1] := by
  unfold endGame
  rw [h]
  dsimp only
  rw [updateStats_onlineUsers, updateStats_onlineUsers]

theorem endGame_onlineUsers {s : ServerState} {gid : String} {g : Game}
    (h : alookup s.activeGames gid = some g) :
    (endGame s gid).1.onlineUsers =
      aupdate (aupdate s.onlineUsers g.players.1
          fun e => { e with inGame := false })
        g.players.2 fun e => { e with inGame := false } := by
  unfold endGame
  rw [h]
  dsimp only
  rw [updateStats_onlineUsers, updateStats_onlineUsers]

theorem endGame_db {s : ServerState} {gid : String} {g : Game}
    (h : alookup s.activeGames gid = some g) :
    (endGame s gid).1.db =
      (updateStats (updateStats s g.players.1 g.winner) g.players.2
        g.winner).db := by
  unfold endGame
  rw [h]

theorem emitToPlayers_mem_left {users : List (Nat × PresenceEntry)} {g : Game}
    {f : PresenceEntry → Event} {e : PresenceEntry}
    (h : alookup users g.players.1 = some e) :
    f e ∈ emitToPlayers users g f := by
  unfold emitToPlayers
  apply List.mem_filterMap.mpr
  exact ⟨g.players.1, by simp, by rw [h]; rfl⟩

theorem cachedStats_aupdate {l : List (Nat × PresenceEntry)} {k : Nat}
    {b : Bool} {u : Nat} {e' : PresenceEntry}
    (h : alookup (aupdate l k fun e => { e with inGame := b }) u = some e') :
    ∃ e, alookup l u = some e ∧ cachedStats e' = cachedStats e := by
  rw [alookup_aupdate] at h
  by_cases hu : u = k
  · rw [if_pos hu] at h
    cases he : alookup l k with
    | none =>
        rw [he] at h
        cases h
    | some e =>
        rw [he] at h
        refine ⟨e, by rw [hu]; exact he, ?_⟩
        cases h
        rfl
  · rw [if_neg hu] at h
    exact ⟨e', h, rfl⟩

end LoginTL

open LoginTL

/-- C5 (amended): `quitGame` on a stored game whose winner is already set
does not overwrite the outcome — it is exactly the plain termination
`endGame` of the session: the session is removed and `gameEnded` carries the
unchanged winner (so the stats update and notifications of the termination
run once, at that point).  A repeated `quitGame` after the session is gone
is a strict no-op.  `quitGame` on a game with winner unset forfeits: the
session is removed and `gameEnded` reports the other participant as
winner. -/
theorem c5_quit_is_termination (s : ServerState) (gid : String) (uid : Nat)
    (g : Game) (w : Winner)
    (hg : alookup s.activeGames gid = some g) (hw : g.winner = some w)
    (s0 : ServerState) (g0 : Game)
    (hg0 : alookup s0.activeGames gid = some g0) (hw0 : g0.winner = none)
    (s1 : ServerState) (hs1 : alookup s1.activeGames gid = none) :
    handleQuitGame s gid uid = endGame s gid
    ∧ alookup (handleQuitGame s gid uid).1.activeGames gid = none
    ∧ (∀ e, alookup s.onlineUsers g.players.1 = some e →
        Event.gameEnded e.socketId (some w) ∈ (handleQuitGame s gid uid).2)
    ∧ alookup (handleQuitGame s0 gid uid).1.activeGames gid = none
    ∧ (∀ e, alookup s0.onlineUsers g0.players.1 = some e →
        Event.gameEnded e.socketId
          (some (Winner.player
            (if g0.players.1 = uid then g0.players.2 else g0.players.1)))
          ∈ (handleQuitGame s0 gid uid).2)
    ∧ handleQuitGame s1 gid uid = (s1, []) := by
  have hq : handleQuitGame s gid uid = endGame s gid := by
    unfold handleQuitGame
    rw [hg]
    dsimp only
    rw [forfeitGame_of_some uid (by rw [hw]; rfl), aset_id hg]
  refine ⟨hq, ?_, ?_, ?_, ?_, ?_⟩
  · rw [hq, endGame_activeGames hg]
    exact alookup_aremove_self _ _
  · intro e he
    rw [hq, endGame_events hg]
    apply List.mem_append_left
    have := emitToPlayers_mem_left
      (f := fun e => Event.gameEnded e.socketId g.winner) he
    rw [← hw]
    exact this
  · unfold handleQuitGame
    rw [hg0]
    dsimp only
    rw [endGame_activeGames (g := forfeitGame g0 uid)
      (by exact alookup_aset_self _ _ _)]
    dsimp only
    exact alookup_aremove_self _ _
  · intro e he
    unfold handleQuitGame
    rw [hg0]
    dsimp only
    rw [endGame_events (g := forfeitGame g0 uid)
      (by exact alookup_aset_self _ _ _)]
    apply List.mem_append_left
    have hpl : (forfeitGame g0 uid).players.1 = g0.players.1 := by
      rw [forfeitGame_players]
    have he' : alookup s0.onlineUsers (forfeitGame g0 uid).players.1 =
        some e := by
      rw [hpl]
      exact he
    have hmem := emitToPlayers_mem_left
      (f := fun e => Event.gameEnded e.socketId (forfeitGame g0 uid).winner)
      he'
    have hwin : (forfeitGame g0 uid).winner =
        some (Winner.player
          (if g0.players.1 = uid then g0.players.2 else g0.players.1)) := by
      rw [forfeitGame_of_none uid hw0]
    rw [← hwin]
    exact hmem
  · unfold handleQuitGame
    rw [hs1]

/-- C5 witness: quitting the already-won fixture session is exactly its
termination. -/
theorem c5_quit_is_termination_witness :
    handleQuitGame sWon "g1" 2 = endGame sWon "g1" :=
  (c5_quit_is_termination sWon "g1" 2 gWon (Winner.player 1) rfl rfl
    sLive (freshGame 1 2) rfl rfl sChal rfl).1

/-- C5 counterexample: on the fixture where `"g1"` already has a winner,
`quitGame` is not a no-op: the session is deleted, events are emitted, and
the winner's database row is incremented by the triggered stats update. -/
theorem c5_quit_after_end_not_noop :
    (alookup (handleQuitGame sWon "g1" 2).1.activeGames "g1").isSome = false
    ∧ (alookup sWon.activeGames "g1").isSome = true
    ∧ (handleQuitGame sWon "g1" 2).2 ≠ []
    ∧ ((handleQuitGame sWon "g1" 2).1.db 1).map (fun r => r.gamesWon) =
        some 1
    ∧ (sWon.db 1).map (fun r => r.gamesWon) = some 0 := by
  refine ⟨by decide, rfl, by decide, by decide, by decide⟩

/-- C6: `acceptChallenge` with no stored challenge for the challenged id
fails with the no-challenge `errorMsg`; with a stored challenge and both
participants online (two distinct users), it removes the challenge, stores a
new game with 9 empty cells, `currentTurn` = challenger and winner unset,
marks both participants `inGame`, notifies both sockets of the game start
with the opponent's id, and emits a registry broadcast of the new state. -/
theorem c6_accept_challenge (s : ServerState) (sock now challengedId : Nat)
    (ch : Challenge) (e1 e2 : PresenceEntry)
    (hch : alookup s.pendingChallenges challengedId = some ch)
    (hne : ch.challengerId ≠ challengedId)
    (he1 : alookup s.onlineUsers ch.challengerId = some e1)
    (he2 : alookup s.onlineUsers challengedId = some e2)
    (s0 : ServerState) (sock0 now0 cid0 : Nat)
    (h0 : alookup s0.pendingChallenges cid0 = none) :
    handleAcceptChallenge s0 sock0 now0 cid0 =
      (s0, [Event.errorMsg sock0 "No challenge found to accept."])
    ∧ alookup (handleAcceptChallenge s sock now challengedId).1.pendingChallenges
        challengedId = none
    ∧ alookup (handleAcceptChallenge s sock now challengedId).1.activeGames
        (mkGameId now ch.challengerId challengedId) =
        some (freshGame ch.challengerId challengedId)
    ∧ boardCells (freshGame ch.challengerId challengedId).board =
        List.replicate 9 none
    ∧ (freshGame ch.challengerId challengedId).currentTurn = ch.challengerId
    ∧ (freshGame ch.challengerId challengedId).winner = none
    ∧ ((alookup (handleAcceptChallenge s sock now challengedId).1.onlineUsers
        ch.challengerId).map fun e => e.inGame) = some true
    ∧ ((alookup (handleAcceptChallenge s sock now challengedId).1.onlineUsers
        challengedId).map fun e => e.inGame) = some true
    ∧ Event.gameStarted e1.socketId (mkGameId now ch.challengerId challengedId)
        challengedId ∈ (handleAcceptChallenge s sock now challengedId).2
    ∧ Event.gameStarted e2.socketId (mkGameId now ch.challengerId challengedId)
        ch.challengerId ∈ (handleAcceptChallenge s sock now challengedId).2
    ∧ Event.onlinePlayers
        (lobbyPayload (handleAcceptChallenge s sock now challengedId).1) ∈
        (handleAcceptChallenge s sock now challengedId).2 := by
  have herr : handleAcceptChallenge s0 sock0 now0 cid0 =
      (s0, [Event.errorMsg sock0 "No challenge found to accept."]) := by
    unfold handleAcceptChallenge
    rw [h0]
  have hu1 : alookup
      (aupdate (aupdate s.onlineUsers ch.challengerId
          fun e => { e with inGame := true })
        challengedId fun e => { e with inGame := true }) ch.challengerId =
      some { e1 with inGame := true } := by
    rw [alookup_aupdate, if_neg hne, alookup_aupdate, if_pos rfl, he1]
    rfl
  have hu2 : alookup
      (aupdate (aupdate s.onlineUsers ch.challengerId
          fun e => { e with inGame := true })
        challengedId fun e => { e with inGame := true }) challengedId =
      some { e2 with inGame := true } := by
    rw [alookup_aupdate, if_pos rfl, alookup_aupdate,
      if_neg (Ne.symm hne), he2]
    rfl
  refine ⟨herr, ?_, ?_, rfl, rfl, rfl, ?_, ?_, ?_, ?_, ?_⟩ <;>
    unfold handleAcceptChallenge <;> rw [hch] <;> dsimp only
  · exact alookup_aremove_self _ _
  · exact alookup_aset_self _ _ _
  · rw [hu1]
    rfl
  · rw [hu2]
    rfl
  · rw [hu1, hu2]
    simp
  · rw [hu1, hu2]
    simp
  · rw [hu1, hu2]
    simp [broadcastLobby]

/-- C6 witness: accepting the fixture challenge creates the fresh game. -/
theorem c6_accept_challenge_witness :
    alookup (handleAcceptChallenge sChal 20 7 2).1.activeGames
      (mkGameId 7 1 2) = some (freshGame 1 2) :=
  (c6_accept_challenge sChal 20 7 2 chal12 entry1f entry2f rfl (by decide)
    rfl rfl sLive 99 0 5 rfl).2.2.1

/-- C7 (amended): when a stored session between two distinct participants
terminates, the stats written to the database are, for each participant
individually, conditioned only on that participant still being in the
presence registry at that moment: winner p1 → p1's row gains played+1 and
won+1 (lost untouched) and p2's row gains played+1 and lost+1 (won
untouched); a tie → the row gains only played+1.  A participant who is
absent from the registry is skipped entirely (row untouched), and the rows
of non-participants are never touched. -/
theorem c7_stats_on_termination (s : ServerState) (gid : String) (g : Game)
    (p1 p2 : Nat) (r1 r2 : UserRow)
    (hg : alookup s.activeGames gid = some g) (hp : g.players = (p1, p2))
    (hne : p1 ≠ p2)
    (hr1 : s.db p1 = some r1) (hr2 : s.db p2 = some r2) :
    (g.winner = some (Winner.player p1) →
      (∀ e1, alookup s.onlineUsers p1 = some e1 →
        (endGame s gid).1.db p1 =
          some { r1 with gamesCount := r1.gamesCount + 1
                         gamesWon := r1.gamesWon + 1 })
      ∧ (∀ e2, alookup s.onlineUsers p2 = some e2 →
        (endGame s gid).1.db p2 =
          some { r2 with gamesCount := r2.gamesCount + 1
                         gamesLost := r2.gamesLost + 1 }))
    ∧ (g.winner = some Winner.tie →
      (∀ e1, alookup s.onlineUsers p1 = some e1 →
        (endGame s gid).1.db p1 =
          some { r1 with gamesCount := r1.gamesCount + 1 })
      ∧ (∀ e2, alookup s.onlineUsers p2 = some e2 →
        (endGame s gid).1.db p2 =
          some { r2 with gamesCount := r2.gamesCount + 1 }))
    ∧ (alookup s.onlineUsers p1 = none → (endGame s gid).1.db p1 = s.db p1)
    ∧ (alookup s.onlineUsers p2 = none → (endGame s gid).1.db p2 = s.db p2)
    ∧ (∀ x, x ≠ p1 → x ≠ p2 → (endGame s gid).1.db x = s.db x) := by
  have hdb : (endGame s gid).1.db =
      (updateStats (updateStats s p1 g.winner) p2 g.winner).db := by
    rw [endGame_db hg, hp]
  refine ⟨?_, ?_, ?_, ?_, ?_⟩
  · intro hw
    constructor
    · intro e1 he1
      rw [hdb, updateStats_db_other g.winner hne,
        updateStats_db he1 g.winner, if_pos rfl, hr1, hw]
      simp [hne]
    · intro e2 he2
      have he2' : alookup (updateStats s p1 g.winner).onlineUsers p2 =
          some e2 := by
        rw [updateStats_onlineUsers]
        exact he2
      rw [hdb, updateStats_db he2' g.winner, if_pos rfl,
        updateStats_db_other g.winner (Ne.symm hne), hr2, hw]
      have hpp : ¬ (Winner.player p1 = Winner.player p2) := by
        intro hcon
        exact hne (Winner.player.injEq p1 p2 ▸ hcon)
      simp [hpp]
  · intro hw
    constructor
    · intro e1 he1
      rw [hdb, updateStats_db_other g.winner hne,
        updateStats_db he1 g.winner, if_pos rfl, hr1, hw]
      simp
    · intro e2 he2
      have he2' : alookup (updateStats s p1 g.winner).onlineUsers p2 =
          some e2 := by
        rw [updateStats_onlineUsers]
        exact he2
      rw [hdb, updateStats_db he2' g.winner, if_pos rfl,
        updateStats_db_other g.winner (Ne.symm hne), hr2, hw]
      simp
  · intro hoff1
    rw [hdb, updateStats_db_other g.winner hne, updateStats_skip hoff1]
  · intro hoff2
    have hoff2' : alookup (updateStats s p1 g.winner).onlineUsers p2 =
        none := by
      rw [updateStats_onlineUsers]
      exact hoff2
    rw [hdb, updateStats_skip hoff2',
      updateStats_db_other g.winner (Ne.symm hne)]
  · intro x hx1 hx2
    rw [hdb, updateStats_db_other g.winner hx2,
      updateStats_db_other g.winner hx1]

/-- C7 witness: terminating the fixture session won by player 1 while
player 2 is absent from the registry updates the still-online winner's row
(won+1, played+1) and leaves the absent participant's row untouched. -/
theorem c7_stats_on_termination_witness :
    (endGame sC7 "g1").1.db 1 =
      some { rowA with gamesCount := rowA.gamesCount + 1
                       gamesWon := rowA.gamesWon + 1 }
    ∧ (endGame sC7 "g1").1.db 2 = sC7.db 2 :=
  ⟨((c7_stats_on_termination sC7 "g1" gWon 1 2 rowA rowB rfl rfl (by decide)
      rfl rfl).1 rfl).1 entry1 rfl,
   (c7_stats_on_termination sC7 "g1" gWon 1 2 rowA rowB rfl rfl (by decide)
      rfl rfl).2.2.2.1 rfl⟩

/-- C7 counterexample: `"g1"` terminates with winner player 1 while player 2
is no longer in the presence registry; player 1's row gains won+1/played+1,
but player 2's row keeps `games_lost = 0` and `games_count = 0` — the loss
is never recorded, contradicting the "for both participants of every
terminated session" claim. -/
theorem c7_stats_skipped_for_offline :
    gWon.winner = some (Winner.player 1)
    ∧ alookup sC7.onlineUsers 2 = none
    ∧ ((alookup sC7.onlineUsers 1).map fun e => e.userId) = some 1
    ∧ (alookup (endGame sC7 "g1").1.activeGames "g1").isSome = false
    ∧ ((endGame sC7 "g1").1.db 1).map
        (fun r => (r.gamesCount, r.gamesWon, r.gamesLost)) = some (1, 1, 0)
    ∧ ((endGame sC7 "g1").1.db 2).map
        (fun r => (r.gamesCount, r.gamesLost)) = some (0, 0) := by
  refine ⟨rfl, by decide, by decide, by decide, by decide, by decide⟩

namespace LoginTL

/-- Session termination leaves every surviving presence entry's cached stats
snapshot untouched (it only clears `inGame`). -/
theorem cached_endGame {s : ServerState} {gid : String} {u : Nat}
    {e e' : PresenceEntry} (he : alookup s.onlineUsers u = some e)
    (he' : alookup (endGame s gid).1.onlineUsers u = some e') :
    cachedStats e' = cachedStats e := by
  cases hg : alookup s.activeGames gid with
  | none =>
      unfold endGame at he'
      rw [hg] at he'
      obtain rfl := Option.some.inj (he.symm.trans he')
      rfl
  | some g =>
      rw [endGame_onlineUsers hg] at he'
      obtain ⟨ea, hea, hc2⟩ := cachedStats_aupdate he'
      obtain ⟨eb, heb, hc1⟩ := cachedStats_aupdate hea
      obtain rfl := Option.some.inj (he.symm.trans heb)
      rw [hc2, hc1]

end LoginTL

/-- C10: session termination never writes the stats fields cached in
presence entries: `endGame` (and hence the `quitGame` path), `makeMove` and
`acceptChallenge` all preserve every surviving entry's cached snapshot;
every lobby broadcast payload lists exactly the cached snapshot of each
entry; and the snapshot is written only by `joinLobby`, which copies it from
the database row read there. -/
theorem c10_cached_stats_frozen :
    (∀ (s : ServerState) (gid : String) (u : Nat) (e e' : PresenceEntry),
      alookup s.onlineUsers u = some e →
      alookup (endGame s gid).1.onlineUsers u = some e' →
      cachedStats e' = cachedStats e)
    ∧ (∀ (s : ServerState) (gid : String) (uid u : Nat)
        (e e' : PresenceEntry),
      alookup s.onlineUsers u = some e →
      alookup (handleQuitGame s gid uid).1.onlineUsers u = some e' →
      cachedStats e' = cachedStats e)
    ∧ (∀ (s : ServerState) (gid : String) (uid i u : Nat)
        (e e' : PresenceEntry),
      alookup s.onlineUsers u = some e →
      alookup (handleMakeMove s gid uid i).1.onlineUsers u = some e' →
      cachedStats e' = cachedStats e)
    ∧ (∀ (s : ServerState) (sock now cid u : Nat) (e e' : PresenceEntry),
      alookup s.onlineUsers u = some e →
      alookup (handleAcceptChallenge s sock now cid).1.onlineUsers u =
        some e' →
      cachedStats e' = cachedStats e)
    ∧ (∀ (s : ServerState) (u : Nat) (e : PresenceEntry),
      alookup s.onlineUsers u = some e →
      ({ userId := e.userId, displayName := e.name, inGame := e.inGame,
         gamesCount := e.gamesCount, gamesWon := e.gamesWon,
         gamesLost := e.gamesLost } : LobbySummary) ∈ lobbyPayload s)
    ∧ (∀ (s : ServerState) (sock uid : Nat) (row : UserRow),
      s.db uid = some row →
      alookup (handleJoinLobby s sock uid).1.onlineUsers uid =
        some (joinEntry sock uid row)
      ∧ cachedStats (joinEntry sock uid row) =
        (row.gamesCount, row.gamesWon, row.gamesLost)) := by
  refine ⟨fun s gid u e e' he he' => cached_endGame he he', ?_, ?_, ?_, ?_, ?_⟩
  · intro s gid uid u e e' he he'
    unfold handleQuitGame at he'
    cases hg : alookup s.activeGames gid with
    | none =>
        rw [hg] at he'
        obtain rfl := Option.some.inj (he.symm.trans he')
        rfl
    | some g =>
        rw [hg] at he'
        dsimp only at he'
        exact cached_endGame
          (s := { s with activeGames := aset s.activeGames gid (forfeitGame g uid) })
          he he'
  · intro s gid uid i u e e' he he'
    rw [handleMakeMove_onlineUsers] at he'
    obtain rfl := Option.some.inj (he.symm.trans he')
    rfl
  · intro s sock now cid u e e' he he'
    unfold handleAcceptChallenge at he'
    cases hch : alookup s.pendingChallenges cid with
    | none =>
        rw [hch] at he'
        obtain rfl := Option.some.inj (he.symm.trans he')
        rfl
    | some ch =>
        rw [hch] at he'
        dsimp only at he'
        obtain ⟨ea, hea, hc2⟩ := cachedStats_aupdate he'
        obtain ⟨eb, heb, hc1⟩ := cachedStats_aupdate hea
        obtain rfl := Option.some.inj (he.symm.trans heb)
        rw [hc2, hc1]
  · intro s u e he
    exact List.mem_map_of_mem _ (alookup_mem _ _ _ he)
  · intro s sock uid row hrow
    unfold handleJoinLobby
    rw [hrow]
    dsimp only
    exact ⟨alookup_aset_self _ _ _, rfl⟩

/-- C10 witness: a fresh `joinLobby` on the fixture copies the database
row's stats into the cached snapshot. -/
theorem c10_cached_stats_frozen_witness :
    alookup (handleJoinLobby sChal 30 1).1.onlineUsers 1 =
      some (joinEntry 30 1 rowA)
    ∧ cachedStats (joinEntry 30 1 rowA) =
      (rowA.gamesCount, rowA.gamesWon, rowA.gamesLost) :=
  c10_cached_stats_frozen.2.2.2.2.2 sChal 30 1 rowA rfl

namespace LoginTL

/-! ### Preservation of the occupied-flag soundness invariant -/

theorem inGame_false_aupdate_self {l : List (Nat × PresenceEntry)}
    {k u : Nat} {e : PresenceEntry}
    (hu : alookup (aupdate l k fun x => { x with inGame := false }) u =
      some e) (hk : u = k) : e.inGame = false := by
  rw [alookup_aupdate, if_pos hk] at hu
  cases hx : alookup l k with
  | none =>
      rw [hx] at hu
      cases hu
  | some x =>
      rw [hx] at hu
      obtain rfl := Option.some.inj hu
      rfl

theorem alookup_aupdate_other {κ α : Type} [DecidableEq κ]
    {l : List (κ × α)} {k u : κ} {f : α → α} {e : α} (hne : u ≠ k)
    (hu : alookup (aupdate l k f) u = some e) : alookup l u = some e := by
  rw [alookup_aupdate, if_neg hne] at hu
  exact hu

theorem occupiedSound_joinLobby {s : ServerState} (sock uid : Nat)
    (h : occupiedSound s) : occupiedSound (handleJoinLobby s sock uid).1 := by
  unfold handleJoinLobby
  cases hdb : s.db uid with
  | none => exact h
  | some row =>
      intro u e hu hin
      dsimp only at hu ⊢
      by_cases huid : u = uid
      · rw [huid, alookup_aset_self] at hu
        obtain rfl := Option.some.inj hu
        cases hin
      · rw [alookup_aset_ne _ _ _ _ huid] at hu
        exact h u e hu hin

theorem occupiedSound_sendChallenge {s : ServerState}
    (sock c1 c2 now : Nat) (h : occupiedSound s) :
    occupiedSound (handleSendChallenge s sock c1 c2 now).1 := by
  unfold handleSendChallenge
  cases h1 : alookup s.onlineUsers c1 with
  | none =>
      cases h2 : alookup s.onlineUsers c2 with
      | none => exact h
      | some b => exact h
  | some a =>
      cases h2 : alookup s.onlineUsers c2 with
      | none => exact h
      | some b =>
          dsimp only
          by_cases hb : b.inGame
          · rw [if_pos hb]
            exact h
          · rw [if_neg hb]
            intro u e hu hin
            exact h u e hu hin

theorem occupiedSound_acceptChallenge {s : ServerState}
    (sock now cid : Nat) (h : occupiedSound s)
    (hfresh : ∀ ch, alookup s.pendingChallenges cid = some ch →
      alookup s.activeGames (mkGameId now ch.challengerId cid) = none) :
    occupiedSound (handleAcceptChallenge s sock now cid).1 := by
  unfold handleAcceptChallenge
  cases hch : alookup s.pendingChallenges cid with
  | none => exact h
  | some ch =>
      intro u e hu hin
      dsimp only at hu ⊢
      by_cases hu2 : u = cid
      · refine ⟨mkGameId now ch.challengerId cid,
          freshGame ch.challengerId cid, alookup_aset_self _ _ _, Or.inr ?_⟩
        rw [hu2]
        rfl
      · by_cases hu1 : u = ch.challengerId
        · refine ⟨mkGameId now ch.challengerId cid,
            freshGame ch.challengerId cid, alookup_aset_self _ _ _,
            Or.inl ?_⟩
          rw [hu1]
          rfl
        · rw [alookup_aupdate, if_neg hu2, alookup_aupdate, if_neg hu1] at hu
          obtain ⟨gid', g', hg', hmem⟩ := h u e hu hin
          by_cases hgid : gid' = mkGameId now ch.challengerId cid
          · rw [hgid, hfresh ch hch] at hg'
            cases hg'
          · refine ⟨gid', g', ?_, hmem⟩
            rw [alookup_aset_ne _ _ _ _ hgid]
            exact hg'

theorem occupiedSound_refuseChallenge {s : ServerState} (cid : Nat)
    (h : occupiedSound s) :
    occupiedSound (handleRefuseChallenge s cid).1 := by
  unfold handleRefuseChallenge
  cases hch : alookup s.pendingChallenges cid with
  | none => exact h
  | some ch =>
      intro u e hu hin
      exact h u e hu hin

theorem occupiedSound_makeMove {s : ServerState} (gid : String)
    (uid i : Nat) (h : occupiedSound s) :
    occupiedSound (handleMakeMove s gid uid i).1 := by
  unfold handleMakeMove
  cases hg : alookup s.activeGames gid with
  | none => exact h
  | some g =>
      dsimp only
      by_cases ha : moveAllowed g uid i
      · rw [if_pos ha]
        intro u e hu hin
        obtain ⟨gid', g', hg', hmem⟩ := h u e hu hin
        by_cases hgid : gid' = gid
        · subst hgid
          obtain rfl := Option.some.inj (hg.symm.trans hg')
          refine ⟨gid', applyMove g uid i, alookup_aset_self _ _ _, ?_⟩
          rw [applyMove_players]
          exact hmem
        · refine ⟨gid', g', ?_, hmem⟩
          rw [alookup_aset_ne _ _ _ _ hgid]
          exact hg'
      · rw [if_neg ha]
        exact h

theorem occupiedSound_endGame {s : ServerState} (gid : String)
    (h : occupiedSound s) : occupiedSound (endGame s gid).1 := by
  cases hg : alookup s.activeGames gid with
  | none =>
      unfold endGame
      rw [hg]
      exact h
  | some g =>
      intro u e hu hin
      rw [endGame_onlineUsers hg] at hu
      by_cases h2 : u = g.players.2
      · rw [inGame_false_aupdate_self hu h2] at hin
        cases hin
      · have hu' := alookup_aupdate_other h2 hu
        by_cases h1 : u = g.players.1
        · rw [inGame_false_aupdate_self hu' h1] at hin
          cases hin
        · have hu'' := alookup_aupdate_other h1 hu'
          obtain ⟨gid', g', hg', hmem⟩ := h u e hu'' hin
          rw [endGame_activeGames hg]
          by_cases hgid : gid' = gid
          · subst hgid
            obtain rfl := Option.some.inj (hg.symm.trans hg')
            rcases hmem with rfl | rfl
            · exact absurd rfl h1
            · exact absurd rfl h2
          · refine ⟨gid', g', ?_, hmem⟩
            rw [alookup_aremove_ne _ _ _ hgid]
            exact hg'

theorem occupiedSound_quitGame {s : ServerState} (gid : String) (uid : Nat)
    (h : occupiedSound s) : occupiedSound (handleQuitGame s gid uid).1 := by
  unfold handleQuitGame
  cases hg : alookup s.activeGames gid with
  | none => exact h
  | some g =>
      dsimp only
      apply occupiedSound_endGame
      intro u e hu hin
      obtain ⟨gid', g', hg', hmem⟩ := h u e hu hin
      by_cases hgid : gid' = gid
      · subst hgid
        obtain rfl := Option.some.inj (hg.symm.trans hg')
        refine ⟨gid', forfeitGame g uid, alookup_aset_self _ _ _, ?_⟩
        rw [forfeitGame_players]
        exact hmem
      · refine ⟨gid', g', ?_, hmem⟩
        rw [alookup_aset_ne _ _ _ _ hgid]
        exact hg'

theorem occupiedSound_disconnect {s : ServerState} (sock : Nat)
    (h : occupiedSound s) : occupiedSound (handleDisconnect s sock).1 := by
  unfold handleDisconnect
  cases hf : s.onlineUsers.find? (fun p => p.2.socketId == sock) with
  | none => exact h
  | some p =>
      intro u e hu hin
      dsimp only at hu ⊢
      by_cases hup : u = p.2.userId
      · rw [hup, alookup_aremove_self] at hu
        cases hu
      · rw [alookup_aremove_ne _ _ _ hup] at hu
        exact h u e hu hin

end LoginTL

/-- C9 (amended): at every state reachable from the empty start by any
sequence of messages (with clock-generated game ids fresh), a presence
entry's `inGame` flag is true only if its user id is a participant of some
stored game.  The converse direction of the claimed "if and only if" fails:
see the counterexample, where a participant of a live game re-issues
`joinLobby` and gets an entry with `inGame = false`. -/
theorem c9_occupied_implies_in_game (s : ServerState) (h : Reachable s) :
    occupiedSound s := by
  induction h with
  | init db =>
      intro u e hu hin
      exact Option.noConfusion hu
  | next s op hr hok ih =>
      cases op with
      | joinLobby sock uid => exact occupiedSound_joinLobby sock uid ih
      | sendChallenge sock c1 c2 now =>
          exact occupiedSound_sendChallenge sock c1 c2 now ih
      | acceptChallenge sock now cid =>
          exact occupiedSound_acceptChallenge sock now cid ih hok
      | refuseChallenge cid => exact occupiedSound_refuseChallenge cid ih
      | makeMove gid uid i => exact occupiedSound_makeMove gid uid i ih
      | quitGame gid uid => exact occupiedSound_quitGame gid uid ih
      | disconnect sock => exact occupiedSound_disconnect sock ih

/-- C9 witness: the invariant at the initial state. -/
theorem c9_occupied_implies_in_game_witness :
    occupiedSound { onlineUsers := [], activeGames := [], pendingChallenges := [], db := db2 } :=
  c9_occupied_implies_in_game _ (Reachable.init db2)

/-- C9 counterexample: after join, join, challenge, accept, and a re-issued
`joinLobby` by player 1 from a new socket, player 1's entry has
`inGame = false` although player 1 is the first participant of the stored
game — the claimed "if and only if" fails in the only-if direction read
right-to-left (in a live game but not flagged occupied). -/
theorem c9_occupied_iff_counterexample :
    ((alookup s9e.onlineUsers 1).map fun e => e.inGame) = some false
    ∧ ((alookup s9e.activeGames (mkGameId 7 1 2)).map fun g =>
        g.players.1) = some 1 := by
  refine ⟨by decide, by decide⟩

/-- C8 witness: on the part_004 fixture, the completed vote resets the game
and broadcasts the reset state to both sockets. -/
theorem c8_rematch_reset_witness :
    (Part004.handleRequestReplay Part004.s4 "g1" 2).2 =
      [Event.updateGame 10 (List.replicate 9 none) 1 none,
       Event.updateGame 20 (List.replicate 9 none) 1 none] :=
  (c8_rematch_reset Part004.s4 "g1" Part004.g4 2 entry1 entry2 rfl
    (by decide) rfl rfl).2
